import Mathlib

/-!
Shallow embedding of `eda_conover.py`, an exploratory-data-analysis script
over a housing dataset, together with proofs of its specified properties.

A pandas `DataFrame` is modelled as a list of column names plus a list of
rows; each cell is `Option Value` where `none` models a missing value (NaN)
and `Value` is either a rational number (modelling the numeric dtypes) or a
string (modelling object dtype).  Operations that can raise in Python
(missing file, missing column via `KeyError`, type mismatch during numeric
aggregation) are modelled in the `Except String` monad.  Floating-point
numbers are modelled by exact rationals, except where a square root is
mathematically required (standard deviation, Pearson denominator), where the
value lives in `ℝ`; a pandas `NaN` result is modelled as `none`.
-/

namespace EdaConover

/-- A cell value: numeric (pandas numeric dtypes) or string (object dtype). -/
inductive Value where
  | num (q : ℚ)
  | str (s : String)
deriving DecidableEq, Repr

/-- A cell of the table: `none` models a missing value (NaN). -/
abbrev Cell := Option Value

/-- A row is the list of its cells, positionally aligned with the column list. -/
abbrev Row := List Cell

/-- A pandas DataFrame: named columns and a list of rows. -/
structure DataFrame where
  cols : List String
  rows : List Row
deriving DecidableEq, Repr

/-- `NUMERIC_COLS = ["price", "area", "bedrooms", "bathrooms", "stories"]`. -/
def NUMERIC_COLS : List String := ["price", "area", "bedrooms", "bathrooms", "stories"]

/-- `GROUP_COL = "furnishingstatus"`. -/
def GROUP_COL : String := "furnishingstatus"

/-- Cell lookup `row[c]` given the column list; `none` when the column is
absent (callers that would raise `KeyError` in pandas guard on membership
explicitly). -/
def getCell (cols : List String) (r : Row) (c : String) : Cell :=
  match cols.findIdx? (fun c2 => c2 == c) with
  | some i => r.getD i none
  | none => none

/-- The full cell column `df[c]` (one entry per row). -/
def colCells (df : DataFrame) (c : String) : List Cell :=
  df.rows.map (fun r => getCell df.cols r c)

/-- The subset of columns used by `dropna(subset=NUMERIC_COLS + [GROUP_COL])`. -/
def REQUIRED_COLS : List String := NUMERIC_COLS ++ [GROUP_COL]

/-- A row survives `dropna(subset=REQUIRED_COLS)`: every required cell is
non-null. -/
def rowComplete (cols : List String) (r : Row) : Bool :=
  REQUIRED_COLS.all (fun c => (getCell cols r c).isSome)

/-- `make_clean_view`: `df.dropna(subset=NUMERIC_COLS + [GROUP_COL]).copy()`.
`dropna` raises `KeyError` when a subset column is absent, modelled as
`.error`. -/
def make_clean_view (df : DataFrame) : Except String DataFrame :=
  if REQUIRED_COLS.all (fun c => df.cols.contains c) then
    .ok ⟨df.cols, df.rows.filter (rowComplete df.cols)⟩
  else
    .error "KeyError"

/-- The call protocol of `make_clean_view`: the caller's table after the call
paired with the returned value.  The source mutates nothing (`dropna` without
`inplace` allocates a new frame, and `.copy()` detaches it), so the caller's
table is returned unchanged. -/
def make_clean_view_call (df : DataFrame) : DataFrame × Except String DataFrame :=
  (df, make_clean_view df)

/-- Number of null cells in a column: `df.isna().sum()` for that column. -/
def nullCount (cells : List Cell) : ℕ := cells.countP (·.isNone)

/-- `df.isna().mean()` for one column: mean of the 0/1 null indicator, `none`
(NaN) on an empty column. -/
def isnaMean (cells : List Cell) : Option ℚ :=
  if cells.length = 0 then none
  else some ((nullCount cells : ℚ) / (cells.length : ℚ))

/-- `Series.round(2)`: round to two decimal places. -/
def roundTo2 (q : ℚ) : ℚ := ((round (q * 100) : ℤ) : ℚ) / 100

/-- The `missing_pct` entry: `(df.isna().mean() * 100).round(2)` for one
column; `none` models the NaN produced on an empty table. -/
def missingPctOf (cells : List Cell) : Option ℚ :=
  (isnaMean cells).map (fun m => roundTo2 (m * 100))

/-- The dtype string of a column as inferred by pandas: numeric unless some
cell holds a string. -/
def dtypeOf (cells : List Cell) : String :=
  if cells.all (fun x => match x with | some (.str _) => false | _ => true) then
    "float64"
  else
    "object"

/-- One row of the data dictionary built by `build_data_dictionary`. -/
structure DictRow where
  column : String
  dtype : String
  missing_count : ℕ
  missing_pct : Option ℚ
deriving DecidableEq, Repr

/-- `build_data_dictionary`: one row per source column with name, dtype,
missing count (`df.isna().sum()`) and missing percent
(`(df.isna().mean() * 100).round(2)`). -/
def build_data_dictionary (df : DataFrame) : List DictRow :=
  df.cols.map (fun c =>
    { column := c
      dtype := dtypeOf (colCells df c)
      missing_count := nullCount (colCells df c)
      missing_pct := missingPctOf (colCells df c) })

/-- The per-column missing-value counts `df.isna().sum()` (label, count). -/
def missingCounts (df : DataFrame) : List (String × ℕ) :=
  df.cols.map (fun c => (c, nullCount (colCells df c)))

/-- Helper for `df.duplicated()`: flags each row that equals a previously
seen row (`keep="first"` semantics). -/
def dupFlagsAux (seen : List Row) : List Row → List Bool
  | [] => []
  | r :: rs => decide (r ∈ seen) :: dupFlagsAux (r :: seen) rs

/-- `df.duplicated()`: a boolean per row, true when the row is identical
across all columns to an earlier row. -/
def duplicated (df : DataFrame) : List Bool := dupFlagsAux [] df.rows

/-- `int(df.duplicated().sum())`: the duplicate-row count logged by
`check_quality`. -/
def dup_count (df : DataFrame) : ℕ := (duplicated df).count true

/-- The non-null numeric values of a column (pandas numeric aggregation
skips NaN). -/
def numsOf (cells : List Cell) : List ℚ :=
  cells.filterMap (fun x => match x with | some (.num q) => some q | _ => none)

/-- Linear-interpolation quantile on a sorted list of values, as computed by
`Series.quantile` inside `describe`; `none` (NaN) on an empty column. -/
def quantileSorted (v : List ℚ) (p : ℚ) : Option ℚ :=
  if v.length = 0 then none
  else
    let h : ℚ := p * ((v.length : ℚ) - 1)
    let i : ℕ := ⌊h⌋.toNat
    let γ : ℚ := h - (⌊h⌋ : ℚ)
    some (v.getD i 0 + γ * (v.getD (i + 1) (v.getD i 0) - v.getD i 0))

/-- Sample standard deviation (`ddof = 1`) as used by `describe` and by
`groupby(...).agg(["std"])`; `none` (NaN) for fewer than two values. -/
noncomputable def sampleStd (vals : List ℚ) : Option ℝ :=
  if 2 ≤ vals.length then
    some (Real.sqrt
      ((((vals.map (fun x => (x - vals.sum / (vals.length : ℚ)) ^ 2)).sum
          / ((vals.length : ℚ) - 1) : ℚ) : ℝ)))
  else none

/-- One row of `df[NUMERIC_COLS].describe().T`: count, mean, std, min,
25/50/75 percentiles, max for one numeric column. -/
structure DescribeRow where
  count : ℕ
  mean : Option ℚ
  std : Option ℝ
  min : Option ℚ
  q25 : Option ℚ
  q50 : Option ℚ
  q75 : Option ℚ
  max : Option ℚ

/-- `describe()` for one numeric-dtype column, over its non-null values. -/
noncomputable def describeCol (cells : List Cell) : DescribeRow :=
  let vals := numsOf cells
  let sorted := vals.mergeSort (fun a b => decide (a ≤ b))
  { count := vals.length
    mean := if vals.length = 0 then none else some (vals.sum / (vals.length : ℚ))
    std := sampleStd vals
    min := sorted.head?
    q25 := quantileSorted sorted (1 / 4)
    q50 := quantileSorted sorted (1 / 2)
    q75 := quantileSorted sorted (3 / 4)
    max := sorted.getLast? }

/-- The three quantities `check_quality` computes and logs: missing counts
sorted descending (`df.isna().sum().sort_values(ascending=False)`), the
duplicate-row count, and `df[NUMERIC_COLS].describe()`.  The column
selection `df[NUMERIC_COLS]` raises `KeyError` when a column is absent. -/
noncomputable def check_quality_log (df : DataFrame) :
    Except String ((List (String × ℕ)) × ℕ × List (String × DescribeRow)) :=
  if NUMERIC_COLS.all (fun c => df.cols.contains c) then
    .ok ((missingCounts df).mergeSort (fun a b => decide (b.2 ≤ a.2)),
         dup_count df,
         NUMERIC_COLS.map (fun c => (c, describeCol (colCells df c))))
  else
    .error "KeyError"

/-- `check_quality` itself: logs the three quantities and returns `None`. -/
noncomputable def check_quality (df : DataFrame) : Except String Unit :=
  (check_quality_log df).map (fun _ => ())

/-- The group keys of `df.groupby(GROUP_COL)`: the distinct non-null values
observed in the grouping column (pandas drops NaN keys). -/
def groupKeys (df : DataFrame) : List Value :=
  (df.rows.filterMap (fun r => getCell df.cols r GROUP_COL)).dedup

/-- The rows belonging to group `k` of `df.groupby(GROUP_COL)`. -/
def groupRows (df : DataFrame) (k : Value) : List Row :=
  df.rows.filter (fun r => getCell df.cols r GROUP_COL == some k)

/-- Numeric aggregation of a cell value; a string raises `TypeError` as in
`agg(["count", "mean", "std", "min", "max"])` on an object column. -/
def valNumE : Value → Except String ℚ
  | .num q => .ok q
  | .str _ => .error "TypeError: could not aggregate"

/-- Effectful map over a list in the `Except String` monad, failing on the
first error (structural recursion for easy induction). -/
def exceptMap (f : α → Except String β) : List α → Except String (List β)
  | [] => .ok []
  | a :: l => do
    let b ← f a
    let bs ← exceptMap f l
    pure (b :: bs)

/-- The `["count", "mean", "std", "min", "max"]` aggregate of one numeric
column within one group. -/
structure ColAgg where
  count : ℕ
  mean : Option ℚ
  std : Option ℝ
  min : Option ℚ
  max : Option ℚ

/-- `agg(["count", "mean", "std", "min", "max"])` over one column's cells:
count of non-null values, mean/std over them (NaN-skipping), min and max. -/
noncomputable def colAggE (cells : List Cell) : Except String ColAgg := do
  let vals ← exceptMap valNumE (cells.filterMap id)
  pure { count := vals.length
         mean := if vals.length = 0 then none else some (vals.sum / (vals.length : ℚ))
         std := sampleStd vals
         min := (vals.mergeSort (fun a b => decide (a ≤ b))).head?
         max := (vals.mergeSort (fun a b => decide (a ≤ b))).getLast? }

/-- `df_clean[NUMERIC_COLS].describe().T`: one describe row per numeric
column; the column selection raises `KeyError` when a column is absent. -/
noncomputable def overallStatsE (df_clean : DataFrame) :
    Except String (List (String × DescribeRow)) :=
  if NUMERIC_COLS.all (fun c => df_clean.cols.contains c) then
    .ok (NUMERIC_COLS.map (fun c => (c, describeCol (colCells df_clean c))))
  else
    .error "KeyError"

/-- `df_clean.groupby(GROUP_COL)[NUMERIC_COLS].agg([...])`: one entry per
observed group key, each carrying the per-column aggregates; `KeyError`
when the grouping column is absent. -/
noncomputable def groupedStatsE (df_clean : DataFrame) :
    Except String (List (Value × List (String × ColAgg))) :=
  if df_clean.cols.contains GROUP_COL then
    exceptMap (fun k => do
      let aggs ← exceptMap (fun c => do
        let a ← colAggE (colCells ⟨df_clean.cols, groupRows df_clean k⟩ c)
        pure (c, a)) NUMERIC_COLS
      pure (k, aggs)) (groupKeys df_clean)
  else
    .error "KeyError"

/-- `descriptive_stats`: the transposed overall describe table and the
grouped aggregate. -/
noncomputable def descriptive_stats (df_clean : DataFrame) :
    Except String ((List (String × DescribeRow)) × (List (Value × List (String × ColAgg)))) := do
  let overall ← overallStatsE df_clean
  let grouped ← groupedStatsE df_clean
  pure (overall, grouped)

/-- Mean of a list of rationals (`0` on the empty list; callers guard). -/
def qmean (l : List ℚ) : ℚ := l.sum / (l.length : ℚ)

/-- Pairwise-complete observations of two columns: positions where both
values are non-null (pandas Pearson correlation drops NaN pairwise). -/
def pairComplete (xs ys : List (Option ℚ)) : List (ℚ × ℚ) :=
  (xs.zip ys).filterMap (fun p =>
    match p.1, p.2 with
    | some a, some b => some (a, b)
    | _, _ => none)

/-- Centred cross sum `Σ (x - x̄)(y - ȳ)` over the paired observations. -/
def sxy (ps : List (ℚ × ℚ)) : ℚ :=
  (ps.map (fun p =>
    (p.1 - qmean (ps.map Prod.fst)) * (p.2 - qmean (ps.map Prod.snd)))).sum

/-- Centred square sum `Σ (x - x̄)²` of the first coordinates. -/
def sxx (ps : List (ℚ × ℚ)) : ℚ :=
  (ps.map (fun p => (p.1 - qmean (ps.map Prod.fst)) ^ 2)).sum

/-- Centred square sum `Σ (y - ȳ)²` of the second coordinates. -/
def syy (ps : List (ℚ × ℚ)) : ℚ :=
  (ps.map (fun p => (p.2 - qmean (ps.map Prod.snd)) ^ 2)).sum

/-- Pearson correlation of paired observations:
`Σ(x-x̄)(y-ȳ) / √(Σ(x-x̄)² · Σ(y-ȳ)²)`, `none` (NaN) when either column has
zero variance (this includes fewer than two observations). -/
noncomputable def pearson (ps : List (ℚ × ℚ)) : Option ℝ :=
  if sxx ps = 0 ∨ syy ps = 0 then none
  else some (((sxy ps : ℚ) : ℝ) / Real.sqrt (((sxx ps : ℚ) : ℝ) * ((syy ps : ℚ) : ℝ)))

/-- One entry of `df_clean[NUMERIC_COLS].corr()`. -/
noncomputable def corrCell (xs ys : List (Option ℚ)) : Option ℝ :=
  pearson (pairComplete xs ys)

/-- A cell viewed as an optional number; a string raises `ValueError` as in
`corr()` over an object column. -/
def cellNumE : Cell → Except String (Option ℚ)
  | none => .ok none
  | some (.num q) => .ok (some q)
  | some (.str _) => .error "ValueError: could not convert string to float"

/-- The numeric column `df[c]` for correlation: `KeyError` when absent,
`ValueError` on a string cell, `none` entries for NaN. -/
def numColE (df : DataFrame) (c : String) : Except String (List (Option ℚ)) :=
  if df.cols.contains c then exceptMap cellNumE (colCells df c)
  else .error "KeyError"

/-- `correlation_matrix`: `df_clean[NUMERIC_COLS].corr()`, the 5×5 table of
pairwise Pearson correlations of the numeric columns. -/
noncomputable def correlation_matrix (df_clean : DataFrame) :
    Except String (List (List (Option ℝ))) := do
  let cs ← exceptMap (fun c => numColE df_clean c) NUMERIC_COLS
  pure (cs.map (fun x => cs.map (fun y => corrCell x y)))

/-- `load_data`: `pd.read_csv("Housing.csv")`; the input models the file's
contents, `none` meaning the file is absent (`FileNotFoundError`). -/
def load_data (file : Option DataFrame) : Except String DataFrame :=
  match file with
  | some df => .ok df
  | none => .error "FileNotFoundError: Housing.csv"

/-- `make_plots`: renders the two charts; fails with `KeyError` when a
plotted column is absent, otherwise only displays (returns `None`). -/
def make_plots (df_clean : DataFrame) : Except String Unit :=
  if ["area", "price", GROUP_COL].all (fun c => df_clean.cols.contains c) then
    .ok ()
  else
    .error "KeyError"

/-- The value carried to the end of a successful `main` run: the data
dictionary, the two statistics tables, and the correlation matrix. -/
noncomputable def main_pipeline (file : Option DataFrame) :
    Except String (List DictRow
      × ((List (String × DescribeRow)) × (List (Value × List (String × ColAgg))))
      × List (List (Option ℝ))) := do
  let df ← load_data file
  let dict := build_data_dictionary df
  let _ ← check_quality df
  let df_clean ← make_clean_view df
  let stats ← descriptive_stats df_clean
  let corr ← correlation_matrix df_clean
  let _ ← make_plots df_clean
  pure (dict, stats, corr)

/-- The centred square sum of a numeric column paired with itself (the
sample variance numerator); `0` when the column selection fails.  A column
is non-constant exactly when this is nonzero. -/
def sxxOfCol (df : DataFrame) (c : String) : ℚ :=
  match numColE df c with
  | .ok xs => sxx (pairComplete xs xs)
  | .error _ => 0

/-! ### Concrete tables used to exercise the definitions -/

/-- Shorthand for a numeric cell. -/
def vnum (q : ℚ) : Cell := some (.num q)

/-- Shorthand for a string cell. -/
def vstr (s : String) : Cell := some (.str s)

/-- A table whose first row is complete on the six required columns but null
in `parking`, and whose second row has a null `price`. -/
def dfW1 : DataFrame :=
  ⟨REQUIRED_COLS ++ ["parking"],
   [[vnum 100, vnum 20, vnum 3, vnum 2, vnum 1, vstr "furnished", none],
    [none, vnum 25, vnum 2, vnum 1, vnum 1, vstr "unfurnished", vnum 2]]⟩

/-- A two-column, two-row table with a single null cell. -/
def dfW2 : DataFrame :=
  ⟨["price", "area"], [[vnum 1, none], [vnum 2, vnum 3]]⟩

/-- A three-row table whose third row exactly repeats the first. -/
def dfW6 : DataFrame :=
  ⟨NUMERIC_COLS,
   [[vnum 1, vnum 2, vnum 3, vnum 4, vnum 5],
    [vnum 6, vnum 7, vnum 8, vnum 9, vnum 10],
    [vnum 1, vnum 2, vnum 3, vnum 4, vnum 5]]⟩

/-- A one-row table over the five numeric columns. -/
def dfW7 : DataFrame :=
  ⟨NUMERIC_COLS, [[vnum 1, vnum 2, vnum 3, vnum 4, vnum 5]]⟩

/-- A one-row cleaned table over the six required columns. -/
def dfW4 : DataFrame :=
  ⟨REQUIRED_COLS, [[vnum 1, vnum 2, vnum 3, vnum 4, vnum 5, vstr "furnished"]]⟩

/-- A two-row cleaned table in which every numeric column takes two distinct
values. -/
def dfW3 : DataFrame :=
  ⟨REQUIRED_COLS,
   [[vnum 1, vnum 2, vnum 3, vnum 4, vnum 5, vstr "furnished"],
    [vnum 2, vnum 4, vnum 6, vnum 8, vnum 10, vstr "unfurnished"]]⟩

/-- A cleaned table with two identical rows, so that every numeric column is
constant (zero variance). -/
def dfConst : DataFrame :=
  ⟨REQUIRED_COLS,
   [[vnum 5, vnum 6, vnum 7, vnum 8, vnum 9, vstr "furnished"],
    [vnum 5, vnum 6, vnum 7, vnum 8, vnum 9, vstr "furnished"]]⟩

/-! ### Theorems -/

/-- C5: `make_clean_view` never mutates its input: after the call the
caller's table is unchanged, and the value handed back is exactly the
freshly built view (`dropna(...)` allocates a new frame and `.copy()`
detaches it from the original). -/
theorem make_clean_view_no_input_mutation (df : DataFrame) :
    (make_clean_view_call df).1 = df ∧
    (make_clean_view_call df).2 = make_clean_view df :=
  ⟨rfl, rfl⟩

/-- C1: when the call succeeds, `make_clean_view` returns exactly the rows
of the input in which all six of price, area, bedrooms, bathrooms, stories
and furnishingstatus are non-null — so a null in any other column does not
drop a row — and the output row count is at most the input row count. -/
theorem make_clean_view_keeps_exactly_complete_rows (df out : DataFrame)
    (h : make_clean_view df = .ok out) :
    out.rows = df.rows.filter (fun r =>
      decide (∀ c ∈ ["price", "area", "bedrooms", "bathrooms", "stories",
        "furnishingstatus"], getCell df.cols r c ≠ none)) ∧
    out.rows.length ≤ df.rows.length := by
  unfold make_clean_view at h
  split at h
  · cases h
    constructor
    · refine List.filter_congr ?_
      intro r _
      rw [Bool.eq_iff_iff]
      simp [rowComplete, REQUIRED_COLS, NUMERIC_COLS, GROUP_COL,
        Option.isSome_iff_ne_none]
    · exact List.length_filter_le _ _
  · cases h

/-- Witness for C1 at the concrete table `dfW1`. -/
theorem make_clean_view_keeps_exactly_complete_rows_witness :
    ∃ out, make_clean_view dfW1 = .ok out ∧
      out.rows = dfW1.rows.filter (fun r =>
        decide (∀ c ∈ ["price", "area", "bedrooms", "bathrooms", "stories",
          "furnishingstatus"], getCell dfW1.cols r c ≠ none)) ∧
      out.rows.length ≤ dfW1.rows.length := by
  have h : make_clean_view dfW1 =
      .ok ⟨dfW1.cols,
        [[vnum 100, vnum 20, vnum 3, vnum 2, vnum 1, vstr "furnished", none]]⟩ := by
    rfl
  exact ⟨_, h, (make_clean_view_keeps_exactly_complete_rows dfW1 _ h).1,
    (make_clean_view_keeps_exactly_complete_rows dfW1 _ h).2⟩

/-- C9: the cleaned view has exactly the input's columns (same names, same
order) and its rows are a sublist of the input rows, hence in the same
relative order. -/
theorem make_clean_view_cols_and_row_order (df out : DataFrame)
    (h : make_clean_view df = .ok out) :
    out.cols = df.cols ∧ out.rows.Sublist df.rows := by
  unfold make_clean_view at h
  split at h
  · cases h
    exact ⟨rfl, List.filter_sublist _⟩
  · cases h

/-- Witness for C9 at the concrete table `dfW1`. -/
theorem make_clean_view_cols_and_row_order_witness :
    ∃ out, make_clean_view dfW1 = .ok out ∧
      out.cols = dfW1.cols ∧ out.rows.Sublist dfW1.rows := by
  have h : make_clean_view dfW1 =
      .ok ⟨dfW1.cols,
        [[vnum 100, vnum 20, vnum 3, vnum 2, vnum 1, vstr "furnished", none]]⟩ := by
    rfl
  exact ⟨_, h, (make_clean_view_cols_and_row_order dfW1 _ h).1,
    (make_clean_view_cols_and_row_order dfW1 _ h).2⟩

/-- C2: `build_data_dictionary` has exactly one row per input column, its
`missing_pct` equals `missing_count / row_count * 100` rounded to two
decimals whenever the table has at least one row, and it is NaN (`none`) on
a zero-row table (the guarded undefined case). -/
theorem build_data_dictionary_shape_and_missing_pct (df : DataFrame) :
    (build_data_dictionary df).length = df.cols.length ∧
    ∀ d ∈ build_data_dictionary df,
      (df.rows.length ≠ 0 →
        d.missing_pct =
          some (roundTo2 ((d.missing_count : ℚ) / (df.rows.length : ℚ) * 100))) ∧
      (df.rows.length = 0 → d.missing_pct = none) := by
  constructor
  · simp [build_data_dictionary]
  · intro d hd
    simp only [build_data_dictionary, List.mem_map] at hd
    obtain ⟨c, -, rfl⟩ := hd
    have hlen : (colCells df c).length = df.rows.length := by
      simp [colCells]
    constructor
    · intro hne
      simp [missingPctOf, isnaMean, hlen, hne]
    · intro h0
      simp [missingPctOf, isnaMean, hlen, h0]

/-- Witness for C2 at the concrete table `dfW2`. -/
theorem build_data_dictionary_shape_and_missing_pct_witness :
    (build_data_dictionary dfW2).length = dfW2.cols.length ∧
    ∃ d ∈ build_data_dictionary dfW2,
      d.missing_pct =
        some (roundTo2 ((d.missing_count : ℚ) / (dfW2.rows.length : ℚ) * 100)) := by
  have T := build_data_dictionary_shape_and_missing_pct dfW2
  have hmem : (⟨"area", dtypeOf (colCells dfW2 "area"),
      nullCount (colCells dfW2 "area"),
      missingPctOf (colCells dfW2 "area")⟩ : DictRow)
      ∈ build_data_dictionary dfW2 :=
    List.mem_map.mpr ⟨"area", by decide, rfl⟩
  exact ⟨T.1, ⟨_, hmem, (T.2 _ hmem).1 (by decide)⟩⟩

/-- C10: the four computation functions are deterministic — equal input
tables give equal outputs (logging, not modelled, is the only side
effect). -/
theorem computation_functions_deterministic (df1 df2 : DataFrame) (h : df1 = df2) :
    build_data_dictionary df1 = build_data_dictionary df2 ∧
    make_clean_view df1 = make_clean_view df2 ∧
    descriptive_stats df1 = descriptive_stats df2 ∧
    correlation_matrix df1 = correlation_matrix df2 := by
  subst h
  exact ⟨rfl, rfl, rfl, rfl⟩

/-- Witness for C10 at the concrete table `dfW2`. -/
theorem computation_functions_deterministic_witness :
    build_data_dictionary dfW2 = build_data_dictionary dfW2 ∧
    make_clean_view dfW2 = make_clean_view dfW2 ∧
    descriptive_stats dfW2 = descriptive_stats dfW2 ∧
    correlation_matrix dfW2 = correlation_matrix dfW2 :=
  computation_functions_deterministic dfW2 dfW2 rfl

/-- Bind on a successful `Except` computation just continues. -/
theorem except_bind_ok {α β : Type} (a : α) (f : α → Except String β) :
    ((Except.ok a : Except String α) >>= f) = f a := rfl

/-- Bind on a failed `Except` computation propagates the error. -/
theorem except_bind_error {α β : Type} (e : String) (f : α → Except String β) :
    ((Except.error e : Except String α) >>= f) = Except.error e := rfl

/-- The number of `duplicated` flags set, for any prefix of already-seen
rows: list length minus the number of distinct not-yet-seen rows. -/
theorem count_true_dupFlagsAux (l : List Row) :
    ∀ seen : List Row,
      (dupFlagsAux seen l).count true = l.length - (l.toFinset \ seen.toFinset).card := by
  induction l with
  | nil => intro seen; simp [dupFlagsAux]
  | cons r rs ih =>
    intro seen
    by_cases hr : r ∈ seen
    · have h2 : insert r seen.toFinset = seen.toFinset :=
        Finset.insert_eq_self.mpr (List.mem_toFinset.mpr hr)
      have h1 : insert r rs.toFinset \ seen.toFinset = rs.toFinset \ seen.toFinset := by
        ext x
        by_cases hxr : x = r
        · subst hxr
          simp [List.mem_toFinset.mpr hr]
        · simp [hxr]
      have hsub : (rs.toFinset \ seen.toFinset).card ≤ rs.length :=
        le_trans (Finset.card_le_card Finset.sdiff_subset) (List.toFinset_card_le rs)
      have hc : (dupFlagsAux seen (r :: rs)).count true
          = (dupFlagsAux (r :: seen) rs).count true + 1 := by
        simp [dupFlagsAux, List.count_cons, hr]
      rw [hc, ih (r :: seen)]
      simp only [List.toFinset_cons, List.length_cons, h1, h2]
      omega
    · have h2 : r ∉ seen.toFinset := fun hm => hr (List.mem_toFinset.mp hm)
      have hne : insert r rs.toFinset \ seen.toFinset
          = insert r (rs.toFinset \ insert r seen.toFinset) := by
        ext x
        by_cases hxr : x = r
        · subst hxr
          simp [h2]
        · simp [hxr]
      have hnotmem : r ∉ rs.toFinset \ insert r seen.toFinset := by simp
      have hcard : (insert r rs.toFinset \ seen.toFinset).card
          = (rs.toFinset \ insert r seen.toFinset).card + 1 := by
        rw [hne, Finset.card_insert_of_not_mem hnotmem]
      have hsub : (rs.toFinset \ insert r seen.toFinset).card ≤ rs.length :=
        le_trans (Finset.card_le_card Finset.sdiff_subset) (List.toFinset_card_le rs)
      have hc : (dupFlagsAux seen (r :: rs)).count true
          = (dupFlagsAux (r :: seen) rs).count true := by
        simp [dupFlagsAux, List.count_cons, hr]
      rw [hc, ih (r :: seen)]
      simp only [List.toFinset_cons, List.length_cons, hcard]
      omega

/-- The duplicate count equals the number of rows minus the number of
distinct rows. -/
theorem dup_count_eq_length_sub (df : DataFrame) :
    dup_count df = df.rows.length - df.rows.toFinset.card := by
  simpa [dup_count, duplicated] using count_true_dupFlagsAux df.rows []

/-- C6: on an input table containing exactly one exact duplicate row (one
row equal, across all columns, to one other row, all remaining rows
pairwise distinct), the duplicate count computed and logged by
`check_quality` equals 1. -/
theorem check_quality_duplicate_count_one (df : DataFrame)
    (ms : List (String × ℕ)) (dup : ℕ) (sm : List (String × DescribeRow))
    (hq : check_quality_log df = .ok (ms, dup, sm))
    (l1 l2 l3 : List Row) (r : Row)
    (hrows : df.rows = l1 ++ r :: l2 ++ r :: l3)
    (hnd : (l1 ++ r :: l2 ++ l3).Nodup) :
    dup = 1 := by
  have hdup : dup = dup_count df := by
    unfold check_quality_log at hq
    split at hq
    · simp only [Except.ok.injEq, Prod.mk.injEq] at hq
      exact hq.2.1.symm
    · cases hq
  have hcard : (l1 ++ r :: l2 ++ r :: l3).toFinset = (l1 ++ r :: l2 ++ l3).toFinset := by
    ext x
    simp only [List.toFinset_append, List.toFinset_cons, Finset.mem_union,
      Finset.mem_insert, List.mem_toFinset]
    tauto
  rw [hdup, dup_count_eq_length_sub, hrows, hcard, List.toFinset_card_of_nodup hnd]
  simp only [List.length_append, List.length_cons]
  omega

/-- Witness for C6 at the concrete table `dfW6`. -/
theorem check_quality_duplicate_count_one_witness :
    ∃ ms sm, check_quality_log dfW6 = .ok (ms, 1, sm) := by
  have hq : check_quality_log dfW6 =
      .ok ((missingCounts dfW6).mergeSort (fun a b => decide (b.2 ≤ a.2)),
           dup_count dfW6,
           NUMERIC_COLS.map (fun c => (c, describeCol (colCells dfW6 c)))) := by
    unfold check_quality_log
    rw [if_pos (by decide)]
  have h1 : dup_count dfW6 = 1 :=
    check_quality_duplicate_count_one dfW6 _ _ _ hq
      [] [[vnum 6, vnum 7, vnum 8, vnum 9, vnum 10]] []
      [vnum 1, vnum 2, vnum 3, vnum 4, vnum 5]
      rfl (by decide)
  rw [h1] at hq
  exact ⟨_, _, hq⟩

/-- C8: every stage failure propagates out of the pipeline unhandled,
aborting all later stages — a failing loader, quality check, cleaner,
statistics, correlation, or plotting stage makes the whole run end with
exactly that error; nothing is caught, retried, or converted. -/
theorem main_pipeline_error_propagation (file : Option DataFrame) :
    (∀ e, load_data file = .error e → main_pipeline file = .error e) ∧
    (∀ df e, load_data file = .ok df → check_quality df = .error e →
      main_pipeline file = .error e) ∧
    (∀ df u e, load_data file = .ok df → check_quality df = .ok u →
      make_clean_view df = .error e → main_pipeline file = .error e) ∧
    (∀ df u dfc e, load_data file = .ok df → check_quality df = .ok u →
      make_clean_view df = .ok dfc → descriptive_stats dfc = .error e →
      main_pipeline file = .error e) ∧
    (∀ df u dfc st e, load_data file = .ok df → check_quality df = .ok u →
      make_clean_view df = .ok dfc → descriptive_stats dfc = .ok st →
      correlation_matrix dfc = .error e → main_pipeline file = .error e) ∧
    (∀ df u dfc st co e, load_data file = .ok df → check_quality df = .ok u →
      make_clean_view df = .ok dfc → descriptive_stats dfc = .ok st →
      correlation_matrix dfc = .ok co → make_plots dfc = .error e →
      main_pipeline file = .error e) := by
  refine ⟨?_, ?_, ?_, ?_, ?_, ?_⟩ <;>
    · intros
      simp only [main_pipeline, *, except_bind_ok, except_bind_error]

/-- Witness for C8: with the input file absent, `main` fails with the
loader's error. -/
theorem main_pipeline_error_propagation_witness :
    main_pipeline none = .error "FileNotFoundError: Housing.csv" :=
  (main_pipeline_error_propagation none).1 _ rfl

/-- C7: `check_quality` computes the per-column missing counts sorted in
descending order, and the count/mean/std/min/quartiles/max summary exactly
over the five numeric columns, and returns no value (Python `None`,
modelled `Unit`). -/
theorem check_quality_computed_contents (df : DataFrame)
    (ms : List (String × ℕ)) (dup : ℕ) (sm : List (String × DescribeRow))
    (hq : check_quality_log df = .ok (ms, dup, sm)) :
    ms.Pairwise (fun a b => b.2 ≤ a.2) ∧
    ms.Perm (df.cols.map (fun c => (c, nullCount (colCells df c)))) ∧
    sm.map Prod.fst = NUMERIC_COLS ∧
    (∀ p ∈ sm, p.2 = describeCol (colCells df p.1)) ∧
    check_quality df = .ok () := by
  have hdecomp : ms = (missingCounts df).mergeSort (fun a b => decide (b.2 ≤ a.2)) ∧
      sm = NUMERIC_COLS.map (fun c => (c, describeCol (colCells df c))) := by
    unfold check_quality_log at hq
    split at hq
    · simp only [Except.ok.injEq, Prod.mk.injEq] at hq
      exact ⟨hq.1.symm, hq.2.2.symm⟩
    · cases hq
  obtain ⟨hms, hsm⟩ := hdecomp
  refine ⟨?_, ?_, ?_, ?_, ?_⟩
  · rw [hms]
    have hp : ((missingCounts df).mergeSort (fun a b => decide (b.2 ≤ a.2))).Pairwise
        (fun a b => decide (b.2 ≤ a.2) = true) :=
      List.sorted_mergeSort
        (fun a b c hab hbc => by
          simp only [decide_eq_true_eq] at *
          omega)
        (fun a b => by
          simp only [Bool.or_eq_true, decide_eq_true_eq]
          omega)
        (missingCounts df)
    exact hp.imp (fun hab => by simpa using hab)
  · rw [hms]
    exact List.mergeSort_perm (missingCounts df) _
  · rw [hsm]
    simp [Function.comp_def]
  · rw [hsm]
    intro p hp
    simp only [List.mem_map] at hp
    obtain ⟨c, -, rfl⟩ := hp
    rfl
  · unfold check_quality
    rw [hq]
    rfl

/-- Witness for C7 at the concrete table `dfW7`. -/
theorem check_quality_computed_contents_witness :
    ∃ ms dup sm, check_quality_log dfW7 = .ok (ms, dup, sm) ∧
      ms.Pairwise (fun a b => b.2 ≤ a.2) ∧
      ms.Perm (dfW7.cols.map (fun c => (c, nullCount (colCells dfW7 c)))) ∧
      sm.map Prod.fst = NUMERIC_COLS ∧
      check_quality dfW7 = .ok () := by
  have hq : check_quality_log dfW7 =
      .ok ((missingCounts dfW7).mergeSort (fun a b => decide (b.2 ≤ a.2)),
           dup_count dfW7,
           NUMERIC_COLS.map (fun c => (c, describeCol (colCells dfW7 c)))) := by
    unfold check_quality_log
    rw [if_pos (by decide)]
  have T := check_quality_computed_contents dfW7 _ _ _ hq
  exact ⟨_, _, _, hq, T.1, T.2.1, T.2.2.1, T.2.2.2.2⟩

/-- A successful `exceptMap` relates inputs and outputs elementwise. -/
theorem exceptMap_forall2 {α β : Type} (f : α → Except String β) :
    ∀ (l : List α) (out : List β), exceptMap f l = .ok out →
      List.Forall₂ (fun a b => f a = .ok b) l out := by
  intro l
  induction l with
  | nil =>
    intro out h
    simp only [exceptMap] at h
    cases h
    exact List.Forall₂.nil
  | cons a t ih =>
    intro out h
    unfold exceptMap at h
    cases hfa : f a with
    | error e =>
      rw [hfa, except_bind_error] at h
      cases h
    | ok b =>
      rw [hfa, except_bind_ok] at h
      cases hmt : exceptMap f t with
      | error e =>
        rw [hmt, except_bind_error] at h
        cases h
      | ok bs =>
        rw [hmt, except_bind_ok] at h
        cases h
        exact List.Forall₂.cons hfa (ih bs hmt)

/-- Each output element of a `Forall₂` has a related input element. -/
theorem forall2_mem_right {α β : Type} {R : α → β → Prop} :
    ∀ {l : List α} {out : List β}, List.Forall₂ R l out →
      ∀ b ∈ out, ∃ a ∈ l, R a b := by
  intro l out h
  induction h with
  | nil =>
    intro b hb
    cases hb
  | cons hR _ ih =>
    intro b hb
    rcases List.mem_cons.mp hb with hb | hb
    · exact ⟨_, List.mem_cons_self _ _, hb ▸ hR⟩
    · obtain ⟨a, ha, hRa⟩ := ih b hb
      exact ⟨a, List.mem_cons_of_mem _ ha, hRa⟩

/-- If every related output projects back to its input, the projected output
list is the input list. -/
theorem forall2_map_eq {α β : Type} {R : α → β → Prop} {g : β → α} :
    ∀ {l : List α} {out : List β}, List.Forall₂ R l out →
      (∀ a b, R a b → g b = a) → out.map g = l := by
  intro l out h hg
  induction h with
  | nil => rfl
  | cons hR _ ih =>
    simp only [List.map_cons, hg _ _ hR, ih]

/-- C4: the grouped table of `descriptive_stats` has exactly one group row
per distinct value observed in the `furnishingstatus` column — no row for an
absent category, no missing row for a present one — and each group row
carries the count/mean/std/min/max aggregate for each of the five numeric
columns. -/
theorem descriptive_stats_groups_observed (df : DataFrame)
    (ov : List (String × DescribeRow)) (grp : List (Value × List (String × ColAgg)))
    (h : descriptive_stats df = .ok (ov, grp)) :
    (grp.map Prod.fst).Nodup ∧
    (∀ v : Value, v ∈ grp.map Prod.fst ↔
      ∃ r ∈ df.rows, getCell df.cols r GROUP_COL = some v) ∧
    (∀ g ∈ grp, g.2.map Prod.fst = NUMERIC_COLS ∧
      ∀ pc ∈ g.2, colAggE (colCells ⟨df.cols, groupRows df g.1⟩ pc.1) = .ok pc.2) := by
  unfold descriptive_stats at h
  cases hov : overallStatsE df with
  | error e =>
    rw [hov, except_bind_error] at h
    cases h
  | ok ov0 =>
    rw [hov, except_bind_ok] at h
    cases hgr : groupedStatsE df with
    | error e =>
      rw [hgr, except_bind_error] at h
      cases h
    | ok g0 =>
      rw [hgr, except_bind_ok] at h
      have hpair : g0 = grp := by
        have h' : Except.ok (ov0, g0) = Except.ok (ov, grp) := h
        simp only [Except.ok.injEq, Prod.mk.injEq] at h'
        exact h'.2
      rw [hpair] at hgr
      unfold groupedStatsE at hgr
      split at hgr
      · have HF := exceptMap_forall2 _ _ _ hgr
        have hkey : ∀ k b, (do
            let aggs ← exceptMap (fun c => do
              let a ← colAggE (colCells ⟨df.cols, groupRows df k⟩ c)
              pure (c, a)) NUMERIC_COLS
            pure (k, aggs) : Except String (Value × List (String × ColAgg))) = .ok b →
            ∃ aggs, b = (k, aggs) ∧ exceptMap (fun c => do
              let a ← colAggE (colCells ⟨df.cols, groupRows df k⟩ c)
              pure (c, a)) NUMERIC_COLS = .ok aggs := by
          intro k b hb
          cases hA : exceptMap (fun c => do
            let a ← colAggE (colCells ⟨df.cols, groupRows df k⟩ c)
            pure (c, a)) NUMERIC_COLS with
          | error e =>
            rw [hA, except_bind_error] at hb
            cases hb
          | ok aggs =>
            rw [hA, except_bind_ok] at hb
            have hb' : (k, aggs) = b := Except.ok.inj hb
            exact ⟨aggs, hb'.symm, rfl⟩
        have hfst : grp.map Prod.fst = groupKeys df :=
          forall2_map_eq HF (fun k b hb => by
            obtain ⟨aggs, rfl, -⟩ := hkey k b hb
            rfl)
        refine ⟨?_, ?_, ?_⟩
        · rw [hfst]
          exact List.nodup_dedup _
        · intro v
          rw [hfst]
          simp [groupKeys, List.mem_dedup, List.mem_filterMap]
        · intro g hg
          obtain ⟨k, -, hFk⟩ := forall2_mem_right HF g hg
          obtain ⟨aggs, rfl, hA⟩ := hkey k g hFk
          have HF2 := exceptMap_forall2 _ _ _ hA
          have hcol : ∀ c bc, (do
              let a ← colAggE (colCells ⟨df.cols, groupRows df k⟩ c)
              pure (c, a) : Except String (String × ColAgg)) = .ok bc →
              ∃ a, bc = (c, a) ∧
                colAggE (colCells ⟨df.cols, groupRows df k⟩ c) = .ok a := by
            intro c bc hbc
            cases hCA : colAggE (colCells ⟨df.cols, groupRows df k⟩ c) with
            | error e =>
              rw [hCA, except_bind_error] at hbc
              cases hbc
            | ok a =>
              rw [hCA, except_bind_ok] at hbc
              have hbc' : (c, a) = bc := Except.ok.inj hbc
              exact ⟨a, hbc'.symm, rfl⟩
          constructor
          · exact forall2_map_eq HF2 (fun c bc hbc => by
              obtain ⟨a, rfl, -⟩ := hcol c bc hbc
              rfl)
          · intro pc hpc
            obtain ⟨c, -, hFc⟩ := forall2_mem_right HF2 pc hpc
            obtain ⟨a, rfl, hCA⟩ := hcol c pc hFc
            exact hCA
      · cases hgr

/-- Witness for C4 at the concrete one-row cleaned table `dfW4`. -/
theorem descriptive_stats_groups_observed_witness :
    ∃ ov grp, descriptive_stats dfW4 = .ok (ov, grp) ∧
      (grp.map Prod.fst).Nodup ∧
      Value.str "furnished" ∈ grp.map Prod.fst := by
  obtain ⟨p, hp⟩ : ∃ p, descriptive_stats dfW4 = .ok p := ⟨_, rfl⟩
  obtain ⟨ov, grp⟩ := p
  have T := descriptive_stats_groups_observed dfW4 ov grp hp
  refine ⟨ov, grp, hp, T.1, (T.2.1 _).mpr ?_⟩
  exact ⟨[vnum 1, vnum 2, vnum 3, vnum 4, vnum 5, vstr "furnished"],
    by decide, by decide⟩

/-- A mapped list sum as a sum over positions. -/
theorem sum_map_get (ps : List (ℚ × ℚ)) (h : ℚ × ℚ → ℚ) :
    (ps.map h).sum = ∑ i : Fin ps.length, h (ps.get i) := by
  conv_lhs => rw [← List.ofFn_get ps]
  rw [List.map_ofFn, List.sum_ofFn]
  rfl

/-- Cauchy–Schwarz for the centred sums of paired observations. -/
theorem sxy_sq_le_sxx_mul_syy (ps : List (ℚ × ℚ)) :
    (sxy ps) ^ 2 ≤ sxx ps * syy ps := by
  unfold sxy sxx syy
  rw [sum_map_get, sum_map_get, sum_map_get]
  exact Finset.sum_mul_sq_le_sq_mul_sq Finset.univ _ _

/-- The centred square sum of first coordinates is nonnegative. -/
theorem sxx_nonneg (ps : List (ℚ × ℚ)) : 0 ≤ sxx ps := by
  unfold sxx
  apply List.sum_nonneg
  intro x hx
  obtain ⟨p, -, rfl⟩ := List.mem_map.mp hx
  positivity

/-- The centred square sum of second coordinates is nonnegative. -/
theorem syy_nonneg (ps : List (ℚ × ℚ)) : 0 ≤ syy ps := by
  unfold syy
  apply List.sum_nonneg
  intro x hx
  obtain ⟨p, -, rfl⟩ := List.mem_map.mp hx
  positivity

/-- Swapping the two columns swaps the paired observations. -/
theorem pairComplete_swap (xs ys : List (Option ℚ)) :
    pairComplete ys xs = (pairComplete xs ys).map Prod.swap := by
  unfold pairComplete
  rw [← List.zip_swap xs ys]
  rw [List.filterMap_map, List.map_filterMap]
  congr 1
  funext p
  rcases p with ⟨a, b⟩
  rcases a with _ | a <;> rcases b with _ | b <;> rfl

/-- The cross sum is invariant under swapping the coordinates. -/
theorem sxy_map_swap (ps : List (ℚ × ℚ)) : sxy (ps.map Prod.swap) = sxy ps := by
  unfold sxy
  simp only [List.map_map]
  have h1 : Prod.fst ∘ (Prod.swap : ℚ × ℚ → ℚ × ℚ) = Prod.snd := rfl
  have h2 : Prod.snd ∘ (Prod.swap : ℚ × ℚ → ℚ × ℚ) = Prod.fst := rfl
  rw [h1, h2]
  congr 1
  apply List.map_congr_left
  intro p _
  simp only [Function.comp_apply, Prod.fst_swap, Prod.snd_swap]
  ring

/-- Swapping coordinates exchanges the two square sums, first to second. -/
theorem sxx_map_swap (ps : List (ℚ × ℚ)) : sxx (ps.map Prod.swap) = syy ps := by
  unfold sxx syy
  simp only [List.map_map]
  have h1 : Prod.fst ∘ (Prod.swap : ℚ × ℚ → ℚ × ℚ) = Prod.snd := rfl
  rw [h1]
  rfl

/-- Swapping coordinates exchanges the two square sums, second to first. -/
theorem syy_map_swap (ps : List (ℚ × ℚ)) : syy (ps.map Prod.swap) = sxx ps := by
  unfold sxx syy
  simp only [List.map_map]
  have h2 : Prod.snd ∘ (Prod.swap : ℚ × ℚ → ℚ × ℚ) = Prod.fst := rfl
  rw [h2]
  rfl

/-- Pearson correlation is symmetric in its paired observations. -/
theorem pearson_map_swap (ps : List (ℚ × ℚ)) :
    pearson (ps.map Prod.swap) = pearson ps := by
  unfold pearson
  rw [sxy_map_swap, sxx_map_swap, syy_map_swap]
  exact if_congr or_comm rfl (by rw [mul_comm])

/-- The correlation of two columns is symmetric. -/
theorem corrCell_symm (xs ys : List (Option ℚ)) : corrCell xs ys = corrCell ys xs := by
  unfold corrCell
  rw [pairComplete_swap xs ys, pearson_map_swap]

/-- Zipping a list with itself pairs each element with itself. -/
theorem zip_self_eq_map (l : List (Option ℚ)) :
    l.zip l = l.map (fun a => (a, a)) := by
  induction l with
  | nil => rfl
  | cons a t ih => simp [ih]

/-- Pairing a column with itself yields pairs with equal coordinates. -/
theorem pairComplete_self_diag (xs : List (Option ℚ)) :
    ∀ p ∈ pairComplete xs xs, p.1 = p.2 := by
  intro p hp
  unfold pairComplete at hp
  rw [zip_self_eq_map, List.filterMap_map] at hp
  obtain ⟨a, -, ha⟩ := List.mem_filterMap.mp hp
  cases a with
  | none => cases ha
  | some v =>
    have hv : some (v, v) = some p := ha
    rw [← Option.some.inj hv]

/-- On diagonal observations the three centred sums coincide. -/
theorem sxy_syy_eq_sxx_of_diag (ps : List (ℚ × ℚ)) (h : ∀ p ∈ ps, p.1 = p.2) :
    sxy ps = sxx ps ∧ syy ps = sxx ps := by
  have hmap : ps.map Prod.snd = ps.map Prod.fst :=
    List.map_congr_left (fun p hp => (h p hp).symm)
  constructor
  · unfold sxy sxx
    rw [hmap]
    congr 1
    apply List.map_congr_left
    intro p hp
    rw [← h p hp]
    ring
  · unfold syy sxx
    rw [hmap]
    congr 1
    apply List.map_congr_left
    intro p hp
    rw [← h p hp]

/-- Pearson correlation of a non-constant column with itself is exactly 1. -/
theorem pearson_diag_one (ps : List (ℚ × ℚ)) (h : ∀ p ∈ ps, p.1 = p.2)
    (hS : sxx ps ≠ 0) : pearson ps = some 1 := by
  obtain ⟨h1, h2⟩ := sxy_syy_eq_sxx_of_diag ps h
  unfold pearson
  rw [h1, h2, if_neg (by simp [hS])]
  have hpos : (0 : ℚ) < sxx ps := lt_of_le_of_ne (sxx_nonneg ps) (Ne.symm hS)
  have hposR : (0 : ℝ) < ((sxx ps : ℚ) : ℝ) := by exact_mod_cast hpos
  rw [Real.sqrt_mul_self hposR.le, div_self (ne_of_gt hposR)]

/-- A defined Pearson correlation lies in `[-1, 1]`. -/
theorem pearson_mem_Icc (ps : List (ℚ × ℚ)) (v : ℝ) (h : pearson ps = some v) :
    -1 ≤ v ∧ v ≤ 1 := by
  unfold pearson at h
  split at h
  · cases h
  · rename_i hcond
    push_neg at hcond
    obtain ⟨hx, hy⟩ := hcond
    have hv : v = ((sxy ps : ℚ) : ℝ)
        / Real.sqrt (((sxx ps : ℚ) : ℝ) * ((syy ps : ℚ) : ℝ)) :=
      (Option.some.inj h).symm
    have hxp : (0 : ℚ) < sxx ps := lt_of_le_of_ne (sxx_nonneg ps) (Ne.symm hx)
    have hyp : (0 : ℚ) < syy ps := lt_of_le_of_ne (syy_nonneg ps) (Ne.symm hy)
    have hprod : (0 : ℝ) < ((sxx ps : ℚ) : ℝ) * ((syy ps : ℚ) : ℝ) := by
      have hq : (0 : ℚ) < sxx ps * syy ps := mul_pos hxp hyp
      exact_mod_cast hq
    have hsq : 0 < Real.sqrt (((sxx ps : ℚ) : ℝ) * ((syy ps : ℚ) : ℝ)) :=
      Real.sqrt_pos.mpr hprod
    have hCS : ((sxy ps : ℚ) : ℝ) ^ 2 ≤ ((sxx ps : ℚ) : ℝ) * ((syy ps : ℚ) : ℝ) := by
      have hq := sxy_sq_le_sxx_mul_syy ps
      exact_mod_cast hq
    have habs : |((sxy ps : ℚ) : ℝ)|
        ≤ Real.sqrt (((sxx ps : ℚ) : ℝ) * ((syy ps : ℚ) : ℝ)) := by
      rw [← Real.sqrt_sq_eq_abs]
      exact Real.sqrt_le_sqrt hCS
    have hvabs : |v| ≤ 1 := by
      rw [hv, abs_div, abs_of_nonneg (Real.sqrt_nonneg _)]
      rw [div_le_one hsq]
      exact habs
    exact abs_le.mp hvabs

/-- C3 (amended): when `correlation_matrix` succeeds it returns a square
matrix over the five numeric columns that is symmetric, whose defined
entries all lie in `[-1, 1]`, and whose diagonal entries equal 1 provided
every numeric column is non-constant; a constant (zero-variance) column
makes its row, column and diagonal entry NaN instead (see the
counterexample). -/
theorem correlation_matrix_props (df : DataFrame) (m : List (List (Option ℝ)))
    (h : correlation_matrix df = .ok m) :
    (m.length = NUMERIC_COLS.length ∧ ∀ row ∈ m, row.length = NUMERIC_COLS.length) ∧
    (∀ i j, (m.getD i []).getD j none = (m.getD j []).getD i none) ∧
    ((∀ c ∈ NUMERIC_COLS, sxxOfCol df c ≠ 0) →
      ∀ i, i < m.length → (m.getD i []).getD i none = some 1) ∧
    (∀ i j v, (m.getD i []).getD j none = some v → -1 ≤ v ∧ v ≤ 1) := by
  unfold correlation_matrix at h
  cases hEM : exceptMap (fun c => numColE df c) NUMERIC_COLS with
  | error e =>
    rw [hEM, except_bind_error] at h
    cases h
  | ok cs =>
    rw [hEM, except_bind_ok] at h
    have hm : m = cs.map (fun x => cs.map (fun y => corrCell x y)) :=
      (Except.ok.inj h).symm
    subst hm
    have HF := exceptMap_forall2 _ _ _ hEM
    have hlen : cs.length = NUMERIC_COLS.length := HF.length_eq.symm
    have hr1 : ∀ i, i < cs.length →
        (cs.map (fun x => cs.map (fun y => corrCell x y))).getD i []
          = cs.map (fun y => corrCell (cs.getD i []) y) := by
      intro i hi
      rw [List.getD_eq_getElem _ _ (by simpa using hi), List.getElem_map,
        List.getD_eq_getElem _ _ hi]
    have hentry : ∀ i j, i < cs.length → j < cs.length →
        (((cs.map (fun x => cs.map (fun y => corrCell x y))).getD i []).getD j none)
          = corrCell (cs.getD i []) (cs.getD j []) := by
      intro i j hi hj
      rw [hr1 i hi, List.getD_eq_getElem _ _ (by simpa using hj), List.getElem_map,
        List.getD_eq_getElem _ _ hj]
    have hrow_none : ∀ i j, i < cs.length → cs.length ≤ j →
        (((cs.map (fun x => cs.map (fun y => corrCell x y))).getD i []).getD j none)
          = none := by
      intro i j hi hj
      rw [hr1 i hi]
      apply List.getD_eq_default
      simpa using hj
    have hout_none : ∀ i j, cs.length ≤ i →
        (((cs.map (fun x => cs.map (fun y => corrCell x y))).getD i []).getD j none)
          = none := by
      intro i j hi
      have hnil : (cs.map (fun x => cs.map (fun y => corrCell x y))).getD i [] = [] :=
        List.getD_eq_default _ _ (by simpa using hi)
      rw [hnil]
      rfl
    refine ⟨⟨by simp [hlen], ?_⟩, ?_, ?_, ?_⟩
    · intro row hrow
      obtain ⟨x, -, rfl⟩ := List.mem_map.mp hrow
      simp [hlen]
    · intro i j
      by_cases hi : i < cs.length <;> by_cases hj : j < cs.length
      · rw [hentry i j hi hj, hentry j i hj hi, corrCell_symm]
      · rw [hrow_none i j hi (le_of_not_lt hj), hout_none j i (le_of_not_lt hj)]
      · rw [hout_none i j (le_of_not_lt hi), hrow_none j i hj (le_of_not_lt hi)]
      · rw [hout_none i j (le_of_not_lt hi), hout_none j i (le_of_not_lt hj)]
    · intro hvar i hi
      have hi' : i < cs.length := by simpa using hi
      have hiN : i < NUMERIC_COLS.length := hlen ▸ hi'
      rw [hentry i i hi' hi']
      rw [List.forall₂_iff_get] at HF
      have hrel := HF.2 i hiN hi'
      have hmem : NUMERIC_COLS.get ⟨i, hiN⟩ ∈ NUMERIC_COLS := List.get_mem _ _ hiN
      have hvarc := hvar _ hmem
      unfold sxxOfCol at hvarc
      rw [hrel] at hvarc
      have hgetD : cs.getD i [] = cs.get ⟨i, hi'⟩ := by
        rw [List.getD_eq_getElem _ _ hi']
        rfl
      rw [hgetD]
      unfold corrCell
      exact pearson_diag_one _ (pairComplete_self_diag _) hvarc
    · intro i j v hv
      by_cases hi : i < cs.length
      · by_cases hj : j < cs.length
        · rw [hentry i j hi hj] at hv
          unfold corrCell at hv
          exact pearson_mem_Icc _ v hv
        · rw [hrow_none i j hi (le_of_not_lt hj)] at hv
          cases hv
      · rw [hout_none i j (le_of_not_lt hi)] at hv
        cases hv

/-- Witness for C3 (amended) at the concrete table `dfW3`, whose numeric
columns all take two distinct values. -/
theorem correlation_matrix_props_witness :
    ∃ m, correlation_matrix dfW3 = .ok m ∧
      m.length = NUMERIC_COLS.length ∧
      (∀ i j, (m.getD i []).getD j none = (m.getD j []).getD i none) ∧
      (m.getD 0 []).getD 0 none = some 1 ∧
      (∀ i j v, (m.getD i []).getD j none = some v → -1 ≤ v ∧ v ≤ 1) := by
  obtain ⟨m, hm⟩ : ∃ m, correlation_matrix dfW3 = .ok m := ⟨_, rfl⟩
  have T := correlation_matrix_props dfW3 m hm
  refine ⟨m, hm, T.1.1, T.2.1, ?_, T.2.2.2⟩
  refine T.2.2.1 ?_ 0 (by rw [T.1.1]; norm_num [NUMERIC_COLS])
  intro c hc
  fin_cases hc
  · have h1 : sxxOfCol dfW3 "price" = sxx [((1:ℚ), (1:ℚ)), ((2:ℚ), (2:ℚ))] := rfl
    rw [h1]
    norm_num [sxx, qmean]
  · have h1 : sxxOfCol dfW3 "area" = sxx [((2:ℚ), (2:ℚ)), ((4:ℚ), (4:ℚ))] := rfl
    rw [h1]
    norm_num [sxx, qmean]
  · have h1 : sxxOfCol dfW3 "bedrooms" = sxx [((3:ℚ), (3:ℚ)), ((6:ℚ), (6:ℚ))] := rfl
    rw [h1]
    norm_num [sxx, qmean]
  · have h1 : sxxOfCol dfW3 "bathrooms" = sxx [((4:ℚ), (4:ℚ)), ((8:ℚ), (8:ℚ))] := rfl
    rw [h1]
    norm_num [sxx, qmean]
  · have h1 : sxxOfCol dfW3 "stories" = sxx [((5:ℚ), (5:ℚ)), ((10:ℚ), (10:ℚ))] := rfl
    rw [h1]
    norm_num [sxx, qmean]

/-- Counterexample to C3 as stated: `dfConst` is a cleaned table (its own
clean view) all of whose numeric columns are constant; the correlation
matrix succeeds but its (0,0) diagonal entry is NaN (`none`), not 1.0. -/
theorem correlation_matrix_diag_nan_counterexample :
    make_clean_view dfConst = .ok dfConst ∧
    ∃ m, correlation_matrix dfConst = .ok m ∧
      (m.getD 0 []).getD 0 (some 1) ≠ some 1 := by
  constructor
  · rfl
  · have hEM : exceptMap (fun c => numColE dfConst c) NUMERIC_COLS =
        .ok [[some (5:ℚ), some 5], [some 6, some 6], [some 7, some 7],
             [some 8, some 8], [some 9, some 9]] := rfl
    have hm : correlation_matrix dfConst = .ok
        ([[some (5:ℚ), some 5], [some 6, some 6], [some 7, some 7],
          [some 8, some 8], [some 9, some 9]].map
          (fun x => [[some (5:ℚ), some 5], [some 6, some 6], [some 7, some 7],
            [some 8, some 8], [some 9, some 9]].map (fun y => corrCell x y))) := by
      unfold correlation_matrix
      rw [hEM, except_bind_ok]
      rfl
    refine ⟨_, hm, ?_⟩
    have hzero : sxx (pairComplete [some (5:ℚ), some 5] [some (5:ℚ), some 5]) = 0 := by
      have hpc : pairComplete [some (5:ℚ), some 5] [some (5:ℚ), some 5]
          = [((5:ℚ), (5:ℚ)), (5, 5)] := rfl
      rw [hpc]
      norm_num [sxx, qmean]
    have hdiag : corrCell [some (5:ℚ), some 5] [some (5:ℚ), some 5] = none := by
      unfold corrCell pearson
      rw [if_pos (Or.inl hzero)]
    simp only [List.map_cons, List.getD_cons_zero]
    rw [hdiag]
    simp

end EdaConover
